import Mathlib

set_option maxRecDepth 8000

/-! Shallow embedding of the Telegram chess bot (`bot.py`, `config.py`).

The pure transcript heuristic `convert_voice_to_move` is embedded over
`List Char`; the stateful handlers are embedded as explicit state-passing
functions over a `ChessGame` record.  The external collaborators (the
chess-rules library, the UCI engine process, the chat platform, the file
system and the speech recognizer) are not code of this repository, so they
are abstracted as parameters: a `ChessLib` interface record, explicit
message ids, and outcome flags.  `miniLib` below is a small concrete
instantiation of that interface used to evaluate the handlers on concrete
inputs. -/

/-- Whitespace as recognized by Python's argumentless `str.split` and
`str.strip` (modelled for the ASCII range relevant to this program). -/
def isWs (c : Char) : Bool :=
  c = ' ' || c = '\t' || c = '\n' || c = '\r' || c = '\x0b' || c = '\x0c'

/-- Auxiliary worker for `splitWs`: `acc` holds the reversed current word. -/
def splitWsAux : List Char → List Char → List (List Char)
  | [], acc => if acc.isEmpty then [] else [acc.reverse]
  | c :: rest, acc =>
    if isWs c then
      if acc.isEmpty then splitWsAux rest [] else acc.reverse :: splitWsAux rest []
    else splitWsAux rest (c :: acc)

/-- Python `text.split()`: split on runs of whitespace, dropping empty words. -/
def splitWs (l : List Char) : List (List Char) :=
  splitWsAux l []

/-- Python `' '.join(words)`. -/
def joinSpace (ws : List (List Char)) : List Char :=
  List.intercalate [' '] ws

/-- Python `text.strip()` (both ends). -/
def pyStrip (l : List Char) : List Char :=
  ((l.dropWhile (fun c => isWs c)).reverse.dropWhile (fun c => isWs c)).reverse

/-- Python `str.lower`, modelled for ASCII plus the uppercase Turkish letters
this program's alphabet uses. -/
def pyLower (c : Char) : Char :=
  if c = 'Ş' then 'ş' else if c = 'Ğ' then 'ğ' else if c = 'Ü' then 'ü'
  else if c = 'Ö' then 'ö' else if c = 'Ç' then 'ç' else c.toLower

/-- The six single-character replacements of `bot.py` lines 400-401
(`ş→s, ı→i, ğ→g, ü→u, ö→o, ç→c`); each Python `replace` call has a
one-character pattern and a one-character replacement, so their composition
is this character map. -/
def trFix (c : Char) : Char :=
  if c = 'ş' then 's' else if c = 'ı' then 'i' else if c = 'ğ' then 'g'
  else if c = 'ü' then 'u' else if c = 'ö' then 'o' else if c = 'ç' then 'c' else c

/-- Python substring test `pat in l` for strings. -/
def hasSub (pat : List Char) : List Char → Bool
  | [] => pat.isEmpty
  | c :: rest => pat.isPrefixOf (c :: rest) || hasSub pat rest

/-- Worker for `removeAll`.  The fuel argument only bounds the recursion
depth (each step consumes at least one character, so `l.length` fuel is
always enough); it is structural so that the function reduces by `decide`. -/
def removeAllAux (pat : List Char) : Nat → List Char → List Char
  | _, [] => []
  | 0, l => l
  | fuel + 1, c :: rest =>
    if pat.isPrefixOf (c :: rest) && !pat.isEmpty then
      removeAllAux pat fuel (List.drop (pat.length - 1) rest)
    else
      c :: removeAllAux pat fuel rest

/-- Python `text.replace(pat, '')`: remove all (left-to-right, non-overlapping)
occurrences of `pat`. -/
def removeAll (pat l : List Char) : List Char :=
  removeAllAux pat l.length l

/-- The `pieces` dictionary of `convert_voice_to_move` in insertion order
(Python dicts preserve insertion order). -/
def piecesList : List (List Char × Char) :=
  [ ("at".data, 'N'), ("knight".data, 'N'),
    ("fil".data, 'B'), ("bishop".data, 'B'),
    ("kale".data, 'R'), ("rook".data, 'R'),
    ("vezir".data, 'Q'), ("queen".data, 'Q'),
    ("sah".data, 'K'), ("king".data, 'K'),
    (['ş', 'a', 'h'], 'K') ]

/-- The keyword loop of `convert_voice_to_move`: find the first piece keyword
occurring in the text; if found, record its letter and strip all its
occurrences from the text (`break` after the first hit). -/
def findPiece : List (List Char × Char) → List Char → Option Char × List Char
  | [], t => (none, t)
  | (k, p) :: rest, t =>
    if hasSub k t then (some p, removeAll k t) else findPiece rest t

/-- `clean_word[i] in 'abcdefgh'`. -/
def isFile (c : Char) : Bool := "abcdefgh".data.contains c

/-- `clean_word[i] in '12345678'`. -/
def isRank (c : Char) : Bool := "12345678".data.contains c

/-- `''.join(c for c in word if c.isalnum())` (alphanumeric modelled for the
ASCII range relevant to this program). -/
def cleanWord (w : List Char) : List Char :=
  w.filter (fun c => c.isAlphanum)

/-- The `len(clean_word) == 2` square-coordinate test of the word loop:
returns the two characters when the cleaned word is a file+rank square. -/
def toSq (w : List Char) : Option (Char × Char) :=
  match cleanWord w with
  | [a, b] => if isFile a && isRank b then some (a, b) else none
  | _ => none

/-- The `elif len(clean_word) == 4` combined-move test of the word loop:
returns the cleaned word when it is a file+rank+file+rank token. -/
def mv4 (w : List Char) : Option (List Char) :=
  match cleanWord w with
  | [a, b, c, d] =>
    if isFile a && isRank b && isFile c && isRank d then some [a, b, c, d] else none
  | _ => none

/-- The coordinate-collecting loop of `convert_voice_to_move` (lines 431-441):
2-character squares are appended to the accumulator, a 4-character combined
token is returned immediately, everything else is skipped. -/
def coordScan : List (List Char) → List (Char × Char) → List Char ⊕ List (Char × Char)
  | [], acc => Sum.inr acc.reverse
  | w :: ws, acc =>
    match toSq w with
    | some sq => coordScan ws (sq :: acc)
    | none =>
      match mv4 w with
      | some m => Sum.inl m
      | none => coordScan ws acc

/-- The text normalization of lines 396-401: lowercase, strip, then the six
Turkish-character replacements. -/
def voiceNorm (s : String) : List Char :=
  (pyStrip (s.data.map pyLower)).map trFix

/-- The castling checks of lines 413-417, in source order: the short-castle
check (`'kısa rok' in text or 'kisa rok' in text or 'o-o' in text`) is
evaluated first, then the long-castle check
(`'uzun rok' in text or 'o-o-o' in text`). -/
def voiceCastled (t : List Char) : Option String :=
  if hasSub "kısa rok".data t || hasSub "kisa rok".data t || hasSub "o-o".data t then
    some "O-O"
  else if hasSub "uzun rok".data t || hasSub "o-o-o".data t then
    some "O-O-O"
  else
    none

/-- `convert_voice_to_move` (`bot.py` lines 392-462): translate a speech
transcript into a best-guess move token, or `none` ("no match"). -/
def convert_voice_to_move (voice_text : String) : Option String :=
  let text := voiceNorm voice_text
  match voiceCastled text with
  | some m => some m
  | none =>
    let pr := findPiece piecesList text
    let words := splitWs (joinSpace (splitWs pr.2))
    match coordScan words [] with
    | Sum.inl m4 => some (String.mk m4)
    | Sum.inr coords =>
      match coords, pr.1 with
      | [c], some p => some (String.mk [p, c.1, c.2])
      | [c], none =>
        some (String.mk [c.1, if c.2 = '3' ∨ c.2 = '4' then '2' else '7', c.1, c.2])
      | [c1, c2], _ => some (String.mk [c1.1, c1.2, c2.1, c2.2])
      | _, _ => none

/-- Specification view: the piece letter recorded by the keyword loop for a
given transcript. -/
def voicePieceOf (s : String) : Option Char :=
  (findPiece piecesList (voiceNorm s)).1

/-- Specification view: the word list the coordinate loop of
`convert_voice_to_move` iterates over for a given transcript. -/
def voiceWordsOf (s : String) : List (List Char) :=
  splitWs (joinSpace (splitWs (findPiece piecesList (voiceNorm s)).2))

/-- Specification view: the 2-character square tokens remaining after keyword
stripping, in order of appearance. -/
def voiceSquareTokens (s : String) : List (Char × Char) :=
  (voiceWordsOf s).filterMap toSq

/-- Interface of the external chess-rules library and move provider
(python-chess plus the Stockfish-or-random reply selection).  These are
third-party collaborators of `bot.py`, abstracted as parameters: `B` is the
board type, `M` the move type.  `botMove` covers both the engine reply and
the random fallback of `make_move` (which reply is chosen does not affect
the properties proved here). -/
structure ChessLib (B M : Type) where
  initial : B
  parse_san : B → String → Option M
  from_uci : String → Option M
  legal : B → M → Bool
  push : B → M → B
  game_over : B → Bool
  turn : B → Bool
  piece_at : B → Nat → Option (Bool × Char)
  mkMove : Nat → Nat → M
  uci : M → String
  botMove : B → M

/-- The session object of class `ChessGame` (`bot.py` lines 29-53): wrapped
board, user id, user colour (`chess.WHITE = True`), id of the last board
message, and the currently selected square.  The engine handle is abstracted
into `ChessLib.botMove`. -/
structure ChessGame (B : Type) where
  board : B
  user_id : Nat
  user_color : Bool
  current_message_id : Option Nat
  selected_square : Option Nat
deriving DecidableEq

/-- `ChessGame.__init__` (lines 30-35): fresh initial board, user plays
White, no message sent yet, no square selected. -/
def mkChessGame {B M : Type} (lib : ChessLib B M) (uid : Nat) : ChessGame B :=
  { board := lib.initial
    user_id := uid
    user_color := true
    current_message_id := none
    selected_square := none }

/-- The move-parsing part of `make_move` (lines 60-69): try SAN first, and on
`ValueError` fall back to UCI notation. -/
def parsedMove {B M : Type} (lib : ChessLib B M) (b : B) (s : String) : Option M :=
  match lib.parse_san b s with
  | some m => some m
  | none => lib.from_uci s

/-- `ChessGame.make_move` (lines 55-105): parse the token, reject it if it
parses in neither notation or is not legal, otherwise push the user move and
— when the game is not over and it is not the user's turn — push a reply
move and report its UCI string.  Failure paths return `(false, none)` with
the session untouched. -/
def make_move {B M : Type} (lib : ChessLib B M) (g : ChessGame B) (move_str : String) :
    (Bool × Option String) × ChessGame B :=
  match parsedMove lib g.board move_str with
  | none => ((false, none), g)
  | some m =>
    if lib.legal g.board m then
      let b1 := lib.push g.board m
      if !lib.game_over b1 && (lib.turn b1 != g.user_color) then
        let bm := lib.botMove b1
        let b2 := lib.push b1 bm
        ((true, some (lib.uci bm)), { g with board := b2 })
      else
        ((true, none), { g with board := b1 })
    else
      ((false, none), g)

/-- Python `s.split(sep)` for a one-character separator (keeps empty
parts). -/
def splitOnChar (sep : Char) : List Char → List Char → List (List Char)
  | [], acc => [acc.reverse]
  | c :: rest, acc =>
    if c = sep then acc.reverse :: splitOnChar sep rest []
    else splitOnChar sep rest (c :: acc)

/-- `chess.parse_square` on the payload tail (raises on malformed input,
modelled as `none`). -/
def parse_square (s : String) : Option Nat :=
  match s.data with
  | [f, r] =>
    if isFile f && isRank r then
      some ((r.toNat - '1'.toNat) * 8 + (f.toNat - 'a'.toNat))
    else none
  | _ => none

/-- Feedback sent by `handle_square_selection` via `query.answer` (the
`.errorAnswer` case is the outer exception handler of lines 341-344). -/
inductive TapReply
  | pieceSelected
  | noPiece
  | cancelled
  | moved
  | invalidMove
  | cantMove
  | errorAnswer
deriving DecidableEq

/-- `handle_square_selection` (lines 277-344), after the session lookup:
two-phase tap-to-move.  Result session `none` models `games.pop(user_id)`
on game over.  `renderOk` is false when the board-image request raises (the
outer handler then reports a generic error); `nid` is the id of the newly
sent board message. -/
def handle_square_selection {B M : Type} (lib : ChessLib B M) (g : ChessGame B)
    (data : String) (renderOk : Bool) (nid : Nat) : Option (ChessGame B) × TapReply :=
  match parse_square (String.mk ((splitOnChar '_' data.data []).getD 1 [])) with
  | none => (some g, .errorAnswer)
  | some square =>
    match g.selected_square with
    | none =>
      match lib.piece_at g.board square with
      | some p =>
        if p.1 = g.user_color then
          (some { g with selected_square := some square }, .pieceSelected)
        else
          (some g, .noPiece)
      | none => (some g, .noPiece)
    | some sel =>
      if square = sel then
        (some { g with selected_square := none }, .cancelled)
      else
        let mv := lib.mkMove sel square
        if lib.legal g.board mv then
          let r := make_move lib g (lib.uci mv)
          let g1 := { r.2 with selected_square := none }
          if r.1.1 then
            if renderOk then
              let g2 := { g1 with current_message_id := some nid }
              if lib.game_over g2.board then (none, .moved) else (some g2, .moved)
            else
              (some g1, .errorAnswer)
          else
            (some g1, .invalidMove)
        else
          (some { g with selected_square := none }, .cantMove)

/-- Feedback sent by `handle_voice_message`. -/
inductive VoiceReply
  | noMove
  | moved
  | invalidMove
  | genericError
  | noSoftware
  | convFail
  | notUnderstood
deriving DecidableEq

/-- The move-application tail of `handle_voice_message` (lines 539-578):
translate the transcript, attempt the move, and on success replace the board
message and drop the session if the game ended.  `renderOk` is false when
the board-image request raises after a successful move. -/
def voiceMoveStep {B M : Type} (lib : ChessLib B M) (g : ChessGame B)
    (voice_text : String) (renderOk : Bool) (nid : Nat) :
    Option (ChessGame B) × VoiceReply :=
  match convert_voice_to_move voice_text with
  | none => (some g, .noMove)
  | some mv =>
    let r := make_move lib g mv
    if r.1.1 then
      if renderOk then
        let g1 := { r.2 with current_message_id := some nid }
        if lib.game_over g1.board then (none, .moved) else (some g1, .moved)
      else
        (some r.2, .genericError)
    else
      (some r.2, .invalidMove)

/-- The file system visible to `handle_voice_message`: the set of existing
file paths, as a list. -/
abbrev FS : Type := List String

/-- A file write. -/
def fsAdd (fs : FS) (p : String) : FS := p :: fs

/-- `if os.path.exists(p): os.remove(p)`. -/
def fsRemove (fs : FS) (p : String) : FS := List.filter (fun q => q ≠ p) fs

/-- `os.path.join(tempfile.gettempdir(), f"voice_{user_id}.ogg")` (line 482);
the temporary directory is environment data, passed as `tmp`. -/
def oggPath (tmp : String) (uid : Nat) : String :=
  tmp ++ "/voice_" ++ toString uid ++ ".ogg"

/-- `os.path.join(tempfile.gettempdir(), f"voice_{user_id}.wav")` (line 483). -/
def wavPath (tmp : String) (uid : Nat) : String :=
  tmp ++ "/voice_" ++ toString uid ++ ".wav"

/-- The `finally` block of lines 584-592: remove both temporary audio files
when they exist. -/
def cleanupTemp (tmp : String) (uid : Nat) (fs : FS) : FS :=
  fsRemove (fsRemove fs (oggPath tmp uid)) (wavPath tmp uid)

/-- Outcome of the external FFmpeg invocation (lines 491-511): success,
`CalledProcessError` (with or without a partially written output file), or
`FileNotFoundError`. -/
inductive FfmpegOutcome
  | ok
  | fail (wavWritten : Bool)
  | missing
deriving DecidableEq

/-- The behaviour of the external collaborators during one voice
interaction: attachment download, transcoder, and the two
speech-recognition attempts (Turkish first, then English). -/
structure VoiceEnv where
  downloadOk : Bool
  ffmpeg : FfmpegOutcome
  recogTr : Option String
  recogEn : Option String
  renderOk : Bool
deriving DecidableEq

/-- The body of the inner `try` of `handle_voice_message` (lines 485-583):
download the attachment, transcode it, recognize speech (Turkish, then
English fallback), and run `voiceMoveStep`.  Every exit — early `return`s
and raised exceptions alike — falls through to the `finally` block, which
`handle_voice_message` below applies to the returned file system. -/
def voiceBody {B M : Type} (lib : ChessLib B M) (env : VoiceEnv) (g : ChessGame B)
    (tmp : String) (uid nid : Nat) (fs : FS) :
    FS × Option (ChessGame B) × VoiceReply :=
  let fs1 := fsAdd fs (oggPath tmp uid)
  if !env.downloadOk then
    (fs1, some g, .genericError)
  else
    match env.ffmpeg with
    | .missing => (fs1, some g, .noSoftware)
    | .fail w => (if w then fsAdd fs1 (wavPath tmp uid) else fs1, some g, .convFail)
    | .ok =>
      let fs2 := fsAdd fs1 (wavPath tmp uid)
      match (match env.recogTr with | some t => some t | none => env.recogEn) with
      | none => (fs2, some g, .notUnderstood)
      | some voice_text =>
        let r := voiceMoveStep lib g voice_text env.renderOk nid
        (fs2, r.1, r.2)

/-- `handle_voice_message` (lines 464-597) from the audio-download stage on:
run the body of the inner `try` and apply its `finally` block to whatever
file system the body exits with. -/
def handle_voice_message {B M : Type} (lib : ChessLib B M) (env : VoiceEnv)
    (g : ChessGame B) (tmp : String) (uid nid : Nat) (fs : FS) :
    FS × Option (ChessGame B) × VoiceReply :=
  let r := voiceBody lib env g tmp uid nid fs
  (cleanupTemp tmp uid r.1, r.2)

/-- The module-level `games` dictionary, keyed by user id. -/
abbrev Registry (B : Type) : Type := Nat → Option (ChessGame B)

/-- `games[user_id] = session`. -/
def registrySet {B : Type} (g : Registry B) (uid : Nat) (s : ChessGame B) : Registry B :=
  fun u => if u = uid then some s else g u

/-- The session replacement performed by `newgame_command` (line 243):
`games[user_id] = ChessGame(user_id)`, unconditionally overwriting any
existing entry. -/
def newgameRegister {B M : Type} (lib : ChessLib B M) (reg : Registry B) (uid : Nat) :
    Registry B :=
  registrySet reg uid (mkChessGame lib uid)

/-- Inbound chat-platform events. -/
inductive TgEvent
  | command (name : String) (args : String)
  | textMsg (s : String)
  | voiceMsg
  | audioMsg
  | callbackQuery (data : String)

/-- The handlers `bot.py` defines. -/
inductive HandlerId
  | startH
  | helpH
  | newgameH
  | voiceH
  | messageH
deriving DecidableEq

/-- One `app.add_handler(...)` registration. -/
inductive HandlerEntry
  | onCommand (name : String) (h : HandlerId)
  | onVoiceOrAudio (h : HandlerId)
  | onTextNonCommand (h : HandlerId)

/-- The dispatch table built by `main` (lines 366-390), in registration
order: `/start`, `/help`, `/newgame`, the voice/audio message handler, and
the plain-text handler (`filters.TEXT & ~filters.COMMAND`). -/
def dispatchTable : List HandlerEntry :=
  [ .onCommand "start" .startH,
    .onCommand "help" .helpH,
    .onCommand "newgame" .newgameH,
    .onVoiceOrAudio .voiceH,
    .onTextNonCommand .messageH ]

/-- Whether a registered handler accepts an event.  A `CommandHandler`
matches exactly its command name; the `filters.TEXT & ~filters.COMMAND`
handler matches plain text but no command message. -/
def entryMatches : HandlerEntry → TgEvent → Bool
  | .onCommand n _, .command m _ => n == m
  | .onCommand _ _, _ => false
  | .onVoiceOrAudio _, .voiceMsg => true
  | .onVoiceOrAudio _, .audioMsg => true
  | .onVoiceOrAudio _, _ => false
  | .onTextNonCommand _, .textMsg _ => true
  | .onTextNonCommand _, _ => false

/-- The handler a registration names. -/
def entryHandler : HandlerEntry → HandlerId
  | .onCommand _ h => h
  | .onVoiceOrAudio h => h
  | .onTextNonCommand h => h

/-- Telegram dispatch: the first registered handler matching the event, if
any. -/
def dispatch (e : TgEvent) : Option HandlerId :=
  (dispatchTable.find? (fun en => entryMatches en e)).map entryHandler

/-- The help message of `help_command` (lines 197-230), which documents the
`/move <hamle>` command. -/
def help_text : String :=
  "\n♟️ Satranç Botu - Yardım\n\nKomutlar:\n/start - Botu başlat\n/help - Bu yardım mesajını göster\n/newgame - Yeni oyun başlat\n/move <hamle> - Hamle yap\n\nHamle Formatları:\n1. Standart Notasyon (SAN):\n   • Piyon: e4, d5\n   • At: Nf3, Nc6\n   • Fil: Bc4, Be7\n   • Kale: Ra1, Rd8\n   • Vezir: Qd1, Qh4\n   • Şah: Ke2, Kg8\n   • Rok: O-O (kısa rok), O-O-O (uzun rok)\n   • Alma: Bxe5, Nxf3\n   \n2. Koordinat Notasyonu (UCI):\n   • e2e4 (e2'den e4'e)\n   • g1f3 (g1'den f3'e)\n\nÖrnekler:\n/move e4    (e2-e4 piyonu)\n/move Nf3   (g1-f3 atı)\n/move Bxe5  (fil e5'teki taşı alır)\n/move O-O   (kısa rok)\n\nNot:\n- Beyaz taşlarla oynarsınız\n- Bot siyah taşlarla oynar\n"

/-- The square name `files[file] + str(rank + 1)` of
`create_board_keyboard`, with `files = 'abcdefgh'` and 0-based indices. -/
def square_name (file rank : Nat) : String :=
  String.mk ["abcdefgh".data.getD file ' '] ++ toString (rank + 1)

/-- `ChessGame.create_board_keyboard` (lines 162-176): an 8×8 grid of
buttons, ranks 8 down to 1, files a to h, each button carrying the
zero-width-non-joiner label and the callback payload
`"square_" + square_name`.  A button is modelled as (label, callback data). -/
def create_board_keyboard : List (List (String × String)) :=
  (List.range 8).reverse.map (fun rank =>
    (List.range 8).map (fun file =>
      ("\u200C", "square_" ++ square_name file rank)))

/-- A minimal concrete board used to instantiate the external-library
interface in concrete evaluations: 64 optional (colour, symbol) squares
(index `rank * 8 + file`, as in python-chess) plus the side to move. -/
structure MiniBoard where
  squares : List (Option (Bool × Char))
  turn : Bool
deriving DecidableEq

/-- The standard chess starting squares (white = `true`). -/
def miniInitSquares : List (Option (Bool × Char)) :=
  [ some (true, 'R'), some (true, 'N'), some (true, 'B'), some (true, 'Q'),
    some (true, 'K'), some (true, 'B'), some (true, 'N'), some (true, 'R') ]
  ++ List.replicate 8 (some (true, 'P'))
  ++ List.replicate 32 none
  ++ List.replicate 8 (some (false, 'P'))
  ++ [ some (false, 'R'), some (false, 'N'), some (false, 'B'), some (false, 'Q'),
       some (false, 'K'), some (false, 'B'), some (false, 'N'), some (false, 'R') ]

/-- Name of square index `i` in coordinate notation. -/
def miniSquareName (i : Nat) : String :=
  String.mk [Char.ofNat ('a'.toNat + i % 8), Char.ofNat ('1'.toNat + (i / 8) % 8)]

/-- Coordinate-notation move parsing for `MiniBoard`. -/
def miniParseUci (s : String) : Option (Nat × Nat) :=
  match s.data with
  | [a, b, c, d] =>
    if isFile a && isRank b && isFile c && isRank d then
      some ((b.toNat - '1'.toNat) * 8 + (a.toNat - 'a'.toNat),
            (d.toNat - '1'.toNat) * 8 + (c.toNat - 'a'.toNat))
    else none
  | _ => none

/-- Occupant of a square. -/
def miniPieceAt (b : MiniBoard) (i : Nat) : Option (Bool × Char) :=
  b.squares.getD i none

/-- Relocate the moved piece and give the turn to the other side. -/
def miniPush (b : MiniBoard) (m : Nat × Nat) : MiniBoard :=
  { squares := ((b.squares.set m.2 (miniPieceAt b m.1)).set m.1 none)
    turn := !b.turn }

/-- A move is accepted when its source square holds a piece of the side to
move and it goes somewhere else. -/
def miniLegal (b : MiniBoard) (m : Nat × Nat) : Bool :=
  (match miniPieceAt b m.1 with
   | some p => p.1 == b.turn
   | none => false) && m.1 != m.2

/-- A concrete instantiation of the external chess-library interface, used
to evaluate the embedded handlers on concrete inputs.  SAN parsing is left
unavailable (the handlers under test submit coordinate tokens), the reply
provider plays the fixed move e7e5, and game-over detection reports an
ongoing game. -/
def miniLib : ChessLib MiniBoard (Nat × Nat) where
  initial := { squares := miniInitSquares, turn := true }
  parse_san := fun _ _ => none
  from_uci := miniParseUci
  legal := miniLegal
  push := miniPush
  game_over := fun _ => false
  turn := fun b => b.turn
  piece_at := miniPieceAt
  mkMove := fun f t => (f, t)
  uci := fun m => miniSquareName m.1 ++ miniSquareName m.2
  botMove := fun _ => (52, 36)

/-- Fresh session for the concrete interaction trace. -/
def cexGame0 : ChessGame MiniBoard := mkChessGame miniLib 1

/-- The session after the user taps square e2 of the fresh game: the tap
handler records the selection. -/
def cexGame1 : ChessGame MiniBoard :=
  match (handle_square_selection miniLib cexGame0 "square_e2" true 101).1 with
  | some g => g
  | none => cexGame0

/-- The session after the user then speaks the move "e2 e4": the voice
handler applies the move (and the reply e7e5) without touching the
selection. -/
def cexGame2 : Option (ChessGame MiniBoard) :=
  (voiceMoveStep miniLib cexGame1 "e2 e4" true 102).1

/-- A session with square e2 (index 12) selected, for exercising the tap
handler. -/
def selGame : ChessGame MiniBoard :=
  { mkChessGame miniLib 1 with selected_square := some 12 }

/-- A stale session with leftover selection and message id, for exercising
session replacement. -/
def oldGame : ChessGame MiniBoard :=
  { board := miniLib.initial
    user_id := 1
    user_color := true
    current_message_id := some 77
    selected_square := some 3 }

/-- A registry holding the stale session for user 1. -/
def regOld : Registry MiniBoard := registrySet (fun _ => none) 1 oldGame

/-- The shape of every move token `convert_voice_to_move` can produce: a
castling token, a 4-character coordinate move, or a piece letter followed by
a square. -/
def isMoveTokenShape (m : String) : Bool :=
  m == "O-O" || m == "O-O-O" ||
  (match m.data with
   | [a, b, c, d] => isFile a && isRank b && isFile c && isRank d
   | [p, a, b] => ['N', 'B', 'R', 'Q', 'K'].contains p && isFile a && isRank b
   | _ => false)

/-- The 64 callback payloads a full board keyboard must carry, rank 8 down
to rank 1, files a to h within each rank (built from the claim's wording,
independently of `create_board_keyboard`). -/
def expectedKeyboardPayloads : List String :=
  ["8", "7", "6", "5", "4", "3", "2", "1"].flatMap (fun r =>
    ["a", "b", "c", "d", "e", "f", "g", "h"].map (fun f => "square_" ++ f ++ r))

theorem not_mem_fsRemove (fs : FS) (p : String) : p ∉ fsRemove fs p := by
  intro h
  have h2 := (List.mem_filter.mp h).2
  simp at h2

theorem mem_of_mem_fsRemove {fs : FS} {p q : String} (h : p ∈ fsRemove fs q) : p ∈ fs :=
  (List.mem_filter.mp h).1

theorem cleanup_removes (tmp : String) (uid : Nat) (fs : FS) :
    oggPath tmp uid ∉ cleanupTemp tmp uid fs ∧ wavPath tmp uid ∉ cleanupTemp tmp uid fs := by
  constructor
  · intro h
    exact not_mem_fsRemove _ _ (mem_of_mem_fsRemove h)
  · intro h
    exact not_mem_fsRemove _ _ h

/-- C8: every voice interaction that reaches the audio-download stage ends
with both temporary audio files absent from the file system, whatever the
download, transcoding, recognition, move and rendering outcomes were: the
`finally` block removes both paths on every exit of the handler body. -/
theorem voice_temp_files_removed {B M : Type} (lib : ChessLib B M) (env : VoiceEnv)
    (g : ChessGame B) (tmp : String) (uid nid : Nat) (fs : FS) :
    oggPath tmp uid ∉ (handle_voice_message lib env g tmp uid nid fs).1 ∧
    wavPath tmp uid ∉ (handle_voice_message lib env g tmp uid nid fs).1 :=
  cleanup_removes tmp uid (voiceBody lib env g tmp uid nid fs).1

/-- C1: the dispatch table built by `main` routes no `/move` command at all
— contrary to this claim and to the bot's own `/help` and `/start` texts,
which document `/move <hamle>`; a `/move` message matches neither the three
registered command handlers nor the plain-text handler (whose filter
excludes commands), so it is dropped.  `/newgame` dispatches normally. -/
theorem dispatch_lacks_move_command :
    dispatch (TgEvent.command "move" "e2e4") = none ∧
    dispatch (TgEvent.command "newgame" "") = some HandlerId.newgameH ∧
    hasSub "/move".data help_text.data = true := by
  refine ⟨rfl, rfl, ?_⟩
  decide

/-- C3: evaluating the transcript heuristic at the failing input "o-o-o"
returns the short-castle token "O-O", because the short-castle condition
`'o-o' in text` is tested first and "o-o" is a substring of "o-o-o"; the
claimed long-castle result only arises for "uzun rok". -/
theorem castle_phrase_eval :
    convert_voice_to_move "o-o-o" = some "O-O" ∧
    convert_voice_to_move "uzun rok" = some "O-O-O" ∧
    convert_voice_to_move "kisa rok" = some "O-O" := by
  refine ⟨?_, ?_, ?_⟩ <;> decide

/-- C7: `newgame_command` replaces any existing registry entry for the user
with a freshly constructed session — initial board, no selected square, no
message id — and the replacement is independent of whatever session was
there before. -/
theorem newgame_replaces_session {B M : Type} (lib : ChessLib B M)
    (reg reg2 : Registry B) (uid : Nat) (_h : (reg uid).isSome = true) :
    newgameRegister lib reg uid uid = some (mkChessGame lib uid) ∧
    (mkChessGame lib uid).board = lib.initial ∧
    (mkChessGame lib uid).selected_square = none ∧
    (mkChessGame lib uid).current_message_id = none ∧
    newgameRegister lib reg uid uid = newgameRegister lib reg2 uid uid := by
  refine ⟨?_, rfl, rfl, rfl, ?_⟩ <;> simp [newgameRegister, registrySet]

theorem newgame_replaces_session_witness :
    newgameRegister miniLib regOld 1 1 = some (mkChessGame miniLib 1) :=
  (newgame_replaces_session miniLib regOld (fun _ => none) 1 (by decide)).1

/-- C10: the board keyboard is always a full 8×8 grid — 8 rows of 8 buttons,
callback payloads `"square_" ++ name` running rank 8 down to rank 1 with
files a through h inside each row, each of the 64 squares appearing exactly
once. -/
theorem keyboard_full_grid :
    create_board_keyboard.length = 8 ∧
    (create_board_keyboard.all fun row => row.length == 8) = true ∧
    (create_board_keyboard.map (fun row => row.map Prod.snd)).flatten
      = expectedKeyboardPayloads ∧
    expectedKeyboardPayloads.Nodup ∧
    expectedKeyboardPayloads.length = 64 := by
  refine ⟨rfl, rfl, ?_, ?_, rfl⟩ <;> decide

theorem make_move_keeps {B M : Type} (lib : ChessLib B M) (g : ChessGame B) (s : String) :
    (make_move lib g s).2.selected_square = g.selected_square ∧
    (make_move lib g s).2.user_color = g.user_color ∧
    (make_move lib g s).2.user_id = g.user_id ∧
    (make_move lib g s).2.current_message_id = g.current_message_id := by
  unfold make_move
  cases parsedMove lib g.board s with
  | none => exact ⟨rfl, rfl, rfl, rfl⟩
  | some m =>
    dsimp only
    split
    · split
      · exact ⟨rfl, rfl, rfl, rfl⟩
      · exact ⟨rfl, rfl, rfl, rfl⟩
    · exact ⟨rfl, rfl, rfl, rfl⟩

/-- C4: a move token that parses in neither SAN nor UCI notation, or whose
parsed move is not legal in the current position, makes `make_move` return
`(False, None)` and leaves the session — board, selected square and message
id alike — exactly as it was. -/
theorem make_move_invalid_unchanged {B M : Type} (lib : ChessLib B M) (g : ChessGame B)
    (s : String)
    (h : ∀ m, parsedMove lib g.board s = some m → lib.legal g.board m = false) :
    make_move lib g s = ((false, none), g) := by
  unfold make_move
  cases hp : parsedMove lib g.board s with
  | none => rfl
  | some m => simp [h m hp]

theorem make_move_invalid_unchanged_witness :
    make_move miniLib (mkChessGame miniLib 7) "xx" = ((false, none), mkChessGame miniLib 7) :=
  make_move_invalid_unchanged miniLib (mkChessGame miniLib 7) "xx"
    (by
      intro m hm
      have h0 : parsedMove miniLib (mkChessGame miniLib 7).board "xx" = none := by decide
      rw [h0] at hm
      exact Option.noConfusion hm)

/-- C2 (amended): the selection discipline of the handlers, per input path.
First, when no square is selected, a tap either leaves the selection unset
or sets it to a square holding a piece of the user's colour (established at
selection time).  Second, when a square is already selected, any
well-formed tap — same-square cancel, illegal move, rejected move or
completed move — leaves the selection cleared.  Third, however, the voice
path never touches the selection: a voice move leaves `selected_square`
exactly as it was, so the occupancy invariant can be broken by a voice move
made while a selection is pending (see the counterexample). -/
theorem selected_square_discipline {B M : Type} (lib : ChessLib B M) (g : ChessGame B)
    (data v : String) (renderOk : Bool) (nid : Nat) :
    (g.selected_square = none →
      ∀ g', (handle_square_selection lib g data renderOk nid).1 = some g' →
        g'.selected_square = none ∨
        ∃ sq p, g'.selected_square = some sq ∧ lib.piece_at g'.board sq = some p ∧
          p.1 = g'.user_color) ∧
    (∀ sq, parse_square (String.mk ((splitOnChar '_' data.data []).getD 1 [])) = some sq →
      ∀ sel, g.selected_square = some sel →
        ∀ g', (handle_square_selection lib g data renderOk nid).1 = some g' →
          g'.selected_square = none) ∧
    (∀ g', (voiceMoveStep lib g v renderOk nid).1 = some g' →
      g'.selected_square = g.selected_square) := by
  refine ⟨?_, ?_, ?_⟩
  · intro h0 g' hg
    unfold handle_square_selection at hg
    cases hps : parse_square (String.mk ((splitOnChar '_' data.data []).getD 1 [])) with
    | none =>
      rw [hps] at hg
      simp at hg
      subst hg
      exact Or.inl h0
    | some square =>
      rw [hps, h0] at hg
      dsimp only at hg
      cases hpc : lib.piece_at g.board square with
      | none =>
        rw [hpc] at hg
        simp at hg
        subst hg
        exact Or.inl h0
      | some p =>
        rw [hpc] at hg
        dsimp only at hg
        by_cases hcol : p.1 = g.user_color
        · rw [if_pos hcol] at hg
          simp at hg
          subst hg
          exact Or.inr ⟨square, p, rfl, hpc, hcol⟩
        · rw [if_neg hcol] at hg
          simp at hg
          subst hg
          exact Or.inl h0
  · intro sq hps sel hsel g' hg
    unfold handle_square_selection at hg
    rw [hps, hsel] at hg
    dsimp only at hg
    split at hg
    · simp at hg
      subst hg
      rfl
    · split at hg
      · split at hg
        · split at hg
          · split at hg
            · exact Option.noConfusion hg
            · simp at hg
              subst hg
              rfl
          · simp at hg
            subst hg
            rfl
        · simp at hg
          subst hg
          rfl
      · simp at hg
        subst hg
        rfl
  · intro g' hg
    unfold voiceMoveStep at hg
    cases hcv : convert_voice_to_move v with
    | none =>
      rw [hcv] at hg
      simp at hg
      subst hg
      rfl
    | some mv =>
      rw [hcv] at hg
      dsimp only at hg
      split at hg
      · split at hg
        · split at hg
          · exact Option.noConfusion hg
          · simp at hg
            subst hg
            exact (make_move_keeps lib g mv).1
        · simp at hg
          subst hg
          exact (make_move_keeps lib g mv).1
      · simp at hg
        subst hg
        exact (make_move_keeps lib g mv).1

theorem selected_square_discipline_witness :
    (mkChessGame miniLib 1).selected_square = none :=
  (selected_square_discipline miniLib selGame "square_e2" "x" true 5).2.1 12 (by decide)
    12 (by decide) (mkChessGame miniLib 1) (by decide)

theorem toSq_ok {w : List Char} {a b : Char} (h : toSq w = some (a, b)) :
    isFile a = true ∧ isRank b = true := by
  unfold toSq at h
  split at h
  · split at h
    · rename_i hcond
      cases h
      simpa [Bool.and_eq_true] using hcond
    · cases h
  · cases h

theorem mv4_ok {w m : List Char} (h : mv4 w = some m) :
    ∃ a b c d, m = [a, b, c, d] ∧ isFile a = true ∧ isRank b = true ∧
      isFile c = true ∧ isRank d = true := by
  unfold mv4 at h
  split at h
  · rename_i a b c d _heq
    split at h
    · rename_i hcond
      cases h
      simp only [Bool.and_eq_true] at hcond
      exact ⟨a, b, c, d, rfl, hcond.1.1.1, hcond.1.1.2, hcond.1.2, hcond.2⟩
    · cases h
  · cases h

theorem coordScan_inl {ws : List (List Char)} {m : List Char} :
    ∀ {acc : List (Char × Char)}, coordScan ws acc = Sum.inl m →
      ∃ w, w ∈ ws ∧ mv4 w = some m := by
  induction ws with
  | nil =>
    intro acc h
    simp [coordScan] at h
  | cons w ws ih =>
    intro acc h
    unfold coordScan at h
    cases htq : toSq w with
    | some sq =>
      rw [htq] at h
      obtain ⟨w', hw', hm⟩ := ih h
      exact ⟨w', List.mem_cons_of_mem _ hw', hm⟩
    | none =>
      rw [htq] at h
      dsimp only at h
      cases hm4 : mv4 w with
      | some m' =>
        rw [hm4] at h
        cases h
        exact ⟨w, List.mem_cons_self _ _, hm4⟩
      | none =>
        rw [hm4] at h
        obtain ⟨w', hw', hm⟩ := ih h
        exact ⟨w', List.mem_cons_of_mem _ hw', hm⟩

theorem coordScan_inr_sq {ws : List (List Char)} :
    ∀ {acc l : List (Char × Char)}, coordScan ws acc = Sum.inr l →
      (∀ sq ∈ acc, isFile sq.1 = true ∧ isRank sq.2 = true) →
      ∀ sq ∈ l, isFile sq.1 = true ∧ isRank sq.2 = true := by
  induction ws with
  | nil =>
    intro acc l h hacc
    unfold coordScan at h
    cases h
    intro sq hsq
    exact hacc sq (by simpa using hsq)
  | cons w ws ih =>
    intro acc l h hacc
    unfold coordScan at h
    cases htq : toSq w with
    | some sq0 =>
      obtain ⟨a, b⟩ := sq0
      rw [htq] at h
      refine ih h ?_
      intro sq hsq
      rcases List.mem_cons.mp hsq with rfl | hsq
      · exact toSq_ok htq
      · exact hacc sq hsq
    | none =>
      rw [htq] at h
      dsimp only at h
      cases hm4 : mv4 w with
      | some m' =>
        rw [hm4] at h
        cases h
      | none =>
        rw [hm4] at h
        exact ih h hacc

theorem coordScan_no_mv4 {ws : List (List Char)} (h : ∀ w ∈ ws, mv4 w = none) :
    ∀ acc, coordScan ws acc = Sum.inr (acc.reverse ++ ws.filterMap toSq) := by
  induction ws with
  | nil =>
    intro acc
    simp [coordScan]
  | cons w ws ih =>
    intro acc
    unfold coordScan
    cases htq : toSq w with
    | some sq =>
      dsimp only
      rw [ih (fun w' hw' => h w' (List.mem_cons_of_mem _ hw')) (sq :: acc)]
      simp [List.filterMap_cons, htq]
    | none =>
      dsimp only
      rw [h w (List.mem_cons_self _ _)]
      rw [ih (fun w' hw' => h w' (List.mem_cons_of_mem _ hw')) acc]
      simp [List.filterMap_cons, htq]

theorem findPiece_mem {L : List (List Char × Char)} {t : List Char} {p : Char}
    (h : (findPiece L t).1 = some p) : p ∈ L.map Prod.snd := by
  induction L with
  | nil => simp [findPiece] at h
  | cons kp L ih =>
    obtain ⟨k, q⟩ := kp
    unfold findPiece at h
    split at h
    · simp at h
      subst h
      simp
    · simpa using Or.inr (ih h)

theorem voiceCastled_eq {t : List Char} {m : String} (h : voiceCastled t = some m) :
    m = "O-O" ∨ m = "O-O-O" := by
  unfold voiceCastled at h
  split at h
  · cases h
    exact Or.inl rfl
  · split at h
    · cases h
      exact Or.inr rfl
    · cases h

theorem convert_not_castled {s : String} (hc : voiceCastled (voiceNorm s) = none) :
    convert_voice_to_move s =
      match coordScan (voiceWordsOf s) [] with
      | Sum.inl m4 => some (String.mk m4)
      | Sum.inr coords =>
        match coords, voicePieceOf s with
        | [c], some p => some (String.mk [p, c.1, c.2])
        | [c], none =>
          some (String.mk [c.1, if c.2 = '3' ∨ c.2 = '4' then '2' else '7', c.1, c.2])
        | [c1, c2], _ => some (String.mk [c1.1, c1.2, c2.1, c2.2])
        | _, _ => none := by
  unfold convert_voice_to_move voiceWordsOf voicePieceOf
  dsimp only
  rw [hc]

/-- C5 (amended): for a transcript with no castle phrase, no 4-character
combined token among the words left after keyword stripping, and exactly one
2-character square token among those words, the heuristic synthesizes the
move string exactly as claimed: piece letter plus square when a piece
keyword matched, otherwise a pawn coordinate move from the same file whose
origin rank is 2 when the destination rank is 3 or 4 and 7 otherwise. -/
theorem voice_single_square_amended {s : String} {a b : Char}
    (hc : voiceCastled (voiceNorm s) = none)
    (h4 : ∀ w ∈ voiceWordsOf s, mv4 w = none)
    (h1 : voiceSquareTokens s = [(a, b)]) :
    convert_voice_to_move s =
      some (match voicePieceOf s with
            | some p => String.mk [p, a, b]
            | none => String.mk [a, if b = '3' ∨ b = '4' then '2' else '7', a, b]) := by
  have hscan : coordScan (voiceWordsOf s) [] = Sum.inr [(a, b)] := by
    rw [coordScan_no_mv4 h4 []]
    simp only [List.reverse_nil, List.nil_append]
    unfold voiceSquareTokens at h1
    rw [h1]
  rw [convert_not_castled hc, hscan]
  cases voicePieceOf s with
  | none => rfl
  | some p => rfl

theorem voice_single_square_amended_witness :
    convert_voice_to_move "fil e5" = some "Be5" := by
  have h := voice_single_square_amended (s := "fil e5") (a := 'e') (b := '5')
    (by decide) (by decide) (by decide)
  exact h.trans (by decide)

/-- C5 (counterexample to the claim as stated): in the transcript
"e5 e2e4" exactly one 2-character square token remains after keyword
stripping (namely e5, with no piece keyword matched), so the claim mandates
the pawn synthesis "e7e5"; but the heuristic returns "e2e4" instead,
because the 4-character combined token is returned the moment the word loop
reaches it. -/
theorem voice_single_square_counterexample :
    voiceSquareTokens "e5 e2e4" = [('e', '5')] ∧
    voicePieceOf "e5 e2e4" = none ∧
    convert_voice_to_move "e5 e2e4" = some "e2e4" ∧
    ("e2e4" : String) ≠ "e7e5" := by
  refine ⟨?_, ?_, ?_, ?_⟩ <;> decide

/-- C6: for a transcript with no castle phrase and no 4-character combined
token among the words left after keyword stripping, the heuristic returns
the in-order concatenation of the two square tokens when exactly two
remain, and "no match" (`none`) when zero or more than two remain. -/
theorem voice_two_squares {s : String}
    (hc : voiceCastled (voiceNorm s) = none)
    (h4 : ∀ w ∈ voiceWordsOf s, mv4 w = none) :
    (∀ a b c d, voiceSquareTokens s = [(a, b), (c, d)] →
      convert_voice_to_move s = some (String.mk [a, b, c, d])) ∧
    ((voiceSquareTokens s).length = 0 ∨ 2 < (voiceSquareTokens s).length →
      convert_voice_to_move s = none) := by
  have hscan : coordScan (voiceWordsOf s) [] = Sum.inr (voiceSquareTokens s) := by
    rw [coordScan_no_mv4 h4 []]
    simp only [List.reverse_nil, List.nil_append]
    rfl
  constructor
  · intro a b c d h2
    rw [convert_not_castled hc, hscan, h2]
  · intro hlen
    rw [convert_not_castled hc, hscan]
    rcases hts : voiceSquareTokens s with _ | ⟨x, _ | ⟨y, _ | ⟨z, rest⟩⟩⟩
    · rfl
    · rw [hts] at hlen
      simp at hlen
    · rw [hts] at hlen
      simp at hlen
    · cases voicePieceOf s with
      | none => rfl
      | some p => rfl

theorem voice_two_squares_witness :
    convert_voice_to_move "e2 e4" = some "e2e4" := by
  have h := (voice_two_squares (s := "e2 e4") (by decide) (by decide)).1
    'e' '2' 'e' '4' (by decide)
  exact h.trans (by decide)

/-- C9: the transcript heuristic is total by construction (it is a plain
function into `Option String`, mirroring the source's blanket exception
handler that returns `None`), and every token it does produce has the shape
of a move token: a castling token, a 4-character coordinate move, or a
piece letter followed by a square. -/
theorem convert_voice_shape {s m : String} (h : convert_voice_to_move s = some m) :
    isMoveTokenShape m = true := by
  cases hcast : voiceCastled (voiceNorm s) with
  | some c =>
    unfold convert_voice_to_move at h
    dsimp only at h
    rw [hcast] at h
    dsimp only at h
    cases h
    rcases voiceCastled_eq hcast with rfl | rfl <;> decide
  | none =>
    rw [convert_not_castled hcast] at h
    cases hscan : coordScan (voiceWordsOf s) [] with
    | inl m4 =>
      rw [hscan] at h
      cases h
      obtain ⟨w, _, hm4⟩ := coordScan_inl hscan
      obtain ⟨a, b, c, d, rfl, ha, hb, hc', hd⟩ := mv4_ok hm4
      simp only [isMoveTokenShape, Bool.or_eq_true]
      refine Or.inr ?_
      simp only [Bool.and_eq_true]
      exact ⟨⟨⟨ha, hb⟩, hc'⟩, hd⟩
    | inr coords =>
      rw [hscan] at h
      have hsq : ∀ sq ∈ coords, isFile sq.1 = true ∧ isRank sq.2 = true :=
        coordScan_inr_sq hscan (by intro sq hsq; cases hsq)
      rcases coords with _ | ⟨⟨a, b⟩, _ | ⟨⟨c, d⟩, _ | ⟨z, rest⟩⟩⟩
      · cases h
      · have hab := hsq (a, b) (by simp)
        cases hp : voicePieceOf s with
        | some p =>
          rw [hp] at h
          cases h
          have hp5 : (['N', 'B', 'R', 'Q', 'K'].contains p) = true := by
            have hmem := findPiece_mem (L := piecesList) hp
            simp only [piecesList, List.map_cons, List.map_nil, List.mem_cons,
              List.not_mem_nil, or_false] at hmem
            rcases hmem with rfl | rfl | rfl | rfl | rfl | rfl | rfl | rfl | rfl | rfl | rfl <;>
              decide
          simp only [isMoveTokenShape, Bool.or_eq_true]
          refine Or.inr ?_
          simp only [Bool.and_eq_true]
          exact ⟨⟨hp5, hab.1⟩, hab.2⟩
        | none =>
          rw [hp] at h
          cases h
          have hr : isRank (if b = '3' ∨ b = '4' then '2' else '7') = true := by
            split <;> decide
          simp only [isMoveTokenShape, Bool.or_eq_true]
          refine Or.inr ?_
          simp only [Bool.and_eq_true]
          exact ⟨⟨⟨hab.1, hr⟩, hab.1⟩, hab.2⟩
      · cases h
        have hab := hsq (a, b) (by simp)
        have hcd := hsq (c, d) (by simp)
        simp only [isMoveTokenShape, Bool.or_eq_true]
        refine Or.inr ?_
        simp only [Bool.and_eq_true]
        exact ⟨⟨⟨hab.1, hab.2⟩, hcd.1⟩, hcd.2⟩
      · cases h

theorem convert_voice_shape_witness : isMoveTokenShape "e2e4" = true :=
  convert_voice_shape (s := "e2 e4") (m := "e2e4") (by decide)

/-- C2 (counterexample): a concrete reachable run violating the claim as
stated.  From a fresh game the user taps e2, so the selection invariant
holds (`selected_square = e2`, a white pawn stands there); the user then
speaks "e2 e4", the voice handler completes the move (white pawn leaves e2,
the reply e7e5 is played), yet `selected_square` is still e2 — a square now
empty — because the voice path neither clears the selection on a completed
move attempt nor re-establishes its occupancy. -/
theorem selected_square_voice_counterexample :
    cexGame1.selected_square = some 12 ∧
    miniLib.piece_at cexGame1.board 12 = some (true, 'P') ∧
    (cexGame2.map fun g => (g.selected_square, miniLib.piece_at g.board 12))
      = some (some 12, none) := by
  refine ⟨?_, ?_, ?_⟩ <;> decide
